import Mathlib

/-!
Verification of the versioned history/snapshot subsystem of DataSnap
(`app/backend/history_tracker.py` and the `/history` routes in
`app/backend/api/history_routes.py`).

Modelling conventions:
* A pandas `DataFrame` is modelled as an immutable `Table` value
  (named columns plus a row grid).  `DataFrame.copy()` produces an
  independent object with equal content, so on values it is the
  identity; the aliasing questions that `copy()` exists to address are
  modelled separately in the `RefModel` namespace, where tables live in
  an explicit heap and Python variables hold references.
* `uuid.uuid4()` mints fresh opaque tokens; we model the token space as
  `Nat` and minting as taking the tracker's counter and bumping it.
  `datetime.now().isoformat()` is a monotone clock; minting order is
  time order, so the same counter serves as the timestamp.
* A Python dict with only-fresh insertions is modelled as an
  association list (`List (Nat × α)`): insertion appends, `.get` is
  `List.lookup`.
-/

namespace DataSnap

/-- A table: ordered named columns and a grid of rows (cells as strings).
Mirrors the data the routes read off the main DataFrame: `len(df)` rows
and `len(df.columns)` columns. -/
structure Table where
  cols : List String
  rows : List (List String)
deriving DecidableEq, Repr

/-- `len(df)` -/
def Table.rowCount (t : Table) : Nat := t.rows.length

/-- `len(df.columns)` -/
def Table.colCount (t : Table) : Nat := t.cols.length

/-- One ledger entry, the dict built by `log_change`:
`{'id', 'timestamp', 'action', 'description'}` plus an optional
`'snapshot_id'` key (absent when no table was passed). -/
structure Entry where
  id : Nat
  timestamp : Nat
  action : String
  description : String
  snapshot_id : Option Nat
deriving DecidableEq, Repr

/-- The `HistoryTracker` object: `self.history` (a list of entries),
`self.snapshots` (a dict snapshot_id ↦ stored copy), and the fresh-token
counter modelling `uuid.uuid4()`. -/
structure HistoryTracker where
  history : List Entry
  snapshots : List (Nat × Table)
  ctr : Nat
deriving DecidableEq, Repr

/-- `HistoryTracker.__init__`: empty history, empty snapshot dict. -/
def HistoryTracker.fresh : HistoryTracker :=
  ⟨[], [], 0⟩

/-- `log_change(action, description, data_snapshot=None)`: build an entry
with a fresh id and timestamp; if a snapshot is supplied, store a copy of
it under a fresh snapshot id and attach that id to the entry; append the
entry; return the entry id. -/
def HistoryTracker.log_change (t : HistoryTracker) (action description : String)
    (data_snapshot : Option Table) : HistoryTracker × Nat :=
  match data_snapshot with
  | none =>
      (⟨t.history ++ [⟨t.ctr, t.ctr, action, description, none⟩],
        t.snapshots, t.ctr + 1⟩, t.ctr)
  | some d =>
      (⟨t.history ++ [⟨t.ctr, t.ctr, action, description, some (t.ctr + 1)⟩],
        t.snapshots ++ [(t.ctr + 1, d)], t.ctr + 2⟩, t.ctr)

/-- `get_history`: returns `self.history` (oldest first). -/
def HistoryTracker.get_history (t : HistoryTracker) : List Entry :=
  t.history

/-- `get_snapshot`: `self.snapshots.get(snapshot_id)`. -/
def HistoryTracker.get_snapshot (t : HistoryTracker) (snapshot_id : Nat) : Option Table :=
  t.snapshots.lookup snapshot_id

/-- `revert_to_version(history_id)`: linear scan for the first entry with
a matching id; `None` when no match or no `'snapshot_id'` key; otherwise
resolve the snapshot and return a copy of it (`None` when the lookup
misses). -/
def HistoryTracker.revert_to_version (t : HistoryTracker) (history_id : Nat) : Option Table :=
  match t.history.find? (fun e => e.id == history_id) with
  | none => none
  | some target_entry =>
      match target_entry.snapshot_id with
      | none => none
      | some sid => t.get_snapshot sid

/-- `clear_history`: empties both the entry log and the snapshot dict. -/
def HistoryTracker.clear_history (t : HistoryTracker) : HistoryTracker :=
  ⟨[], [], t.ctr⟩

/-- `export_history`: returns `{'history': self.history}`; snapshots are
not exported. -/
def HistoryTracker.export_history (t : HistoryTracker) : List Entry :=
  t.history

/-- `import_history(history_data)`: `self.history = history_data.get('history', [])`
and `self.snapshots = {}` (snapshots are not imported). -/
def HistoryTracker.import_history (t : HistoryTracker)
    (history_data : Option (List Entry)) : HistoryTracker :=
  ⟨history_data.getD [], [], t.ctr⟩

/-- Flask app state read by the `/history` routes: the
`HISTORY_TRACKER` and `MAIN_DF` config slots (both initialised to `None`
in `app.py`). -/
structure AppState where
  tracker : Option HistoryTracker
  main_df : Option Table
deriving DecidableEq, Repr

/-- An HTTP response: status code plus the flat JSON object passed to
`jsonify` (every body built by the revert route maps string keys to
string values). -/
structure Response where
  code : Nat
  body : List (String × String)
deriving DecidableEq, Repr

/-- `POST /history/revert` (`revert_to_history_version` in
`history_routes.py`): 404 when the tracker or the main DataFrame is
missing; 400 when the request carries no id; otherwise resolve via
`revert_to_version`, and on success install the snapshot as `MAIN_DF`,
log the revert itself (with a snapshot of the reverted state) and answer
200, else answer 404. -/
def revert_to_history_version (st : AppState) (req_id : Option Nat) :
    AppState × Response :=
  match st.tracker, st.main_df with
  | some tracker, some _ =>
      (match req_id with
       | none =>
           (st, ⟨400, [("status", "error"), ("message", "History ID is required.")]⟩)
       | some history_id =>
           match tracker.revert_to_version history_id with
           | some snapshot_df =>
               (⟨some (tracker.log_change "Revert"
                    "Reverted to state from an earlier action."
                    (some snapshot_df)).1,
                 some snapshot_df⟩,
                ⟨200, [("status", "success"),
                       ("message", "Successfully reverted to the selected state.")]⟩)
           | none =>
               (st, ⟨404, [("status", "error"),
                           ("message", "History snapshot not found.")]⟩))
  | _, _ =>
      (st, ⟨404, [("status", "error"),
                  ("message", "History or data not available.")]⟩)

/-- `GET /history`: the ledger in reverse chronological order
(`tracker.get_history()[::-1]`), or an empty list when no tracker is
installed. -/
def get_history_route (st : AppState) : List Entry :=
  match st.tracker with
  | none => []
  | some tracker => tracker.get_history.reverse

/-- Well-formedness of a tracker state: every entry id, every snapshot id
referenced from the ledger and every key of the snapshot dict is below
the fresh-token counter.  Holds for `fresh` and is preserved by every
operation of the class; it is what "uuid4 never collides" becomes in the
counter model. -/
def HistoryTracker.WF (t : HistoryTracker) : Bool :=
  t.history.all (fun e =>
      e.id < t.ctr && (match e.snapshot_id with
                       | none => true
                       | some sid => sid < t.ctr))
  && t.snapshots.all (fun p => p.1 < t.ctr)

/-- One `log_change` call: its `action`, `description` and optional
table argument. -/
structure Call where
  action : String
  description : String
  data_snapshot : Option Table
deriving DecidableEq, Repr

/-- Run a sequence of `log_change` calls (discarding the returned ids),
modelling "later mutations of the live table each logging a change". -/
def runLogs (t : HistoryTracker) : List Call → HistoryTracker
  | [] => t
  | c :: cs => runLogs (t.log_change c.action c.description c.data_snapshot).1 cs

/-- Tracker states reachable by the operations of the class
(`get_history`, `get_snapshot`, `revert_to_version` and
`export_history` do not mutate the object and need no constructor). -/
inductive Reachable : HistoryTracker → Prop
  | init : Reachable HistoryTracker.fresh
  | log (a d : String) (ds : Option Table) {t : HistoryTracker} :
      Reachable t → Reachable (t.log_change a d ds).1
  | clear {t : HistoryTracker} :
      Reachable t → Reachable t.clear_history
  | imp (hd : Option (List Entry)) {t : HistoryTracker} :
      Reachable t → Reachable (t.import_history hd)

/-- Tracker states reachable without `import_history`. -/
inductive ReachableNoImport : HistoryTracker → Prop
  | init : ReachableNoImport HistoryTracker.fresh
  | log (a d : String) (ds : Option Table) {t : HistoryTracker} :
      ReachableNoImport t → ReachableNoImport (t.log_change a d ds).1
  | clear {t : HistoryTracker} :
      ReachableNoImport t → ReachableNoImport t.clear_history

namespace RefModel

/-!
Python-level reference semantics for the snapshot store, needed to state
aliasing properties: DataFrames live in a heap, Python variables and the
dict values of `self.snapshots` hold references, `df.copy()` allocates a
new cell holding the same content, and an in-place mutation of a
DataFrame overwrites its cell.
-/

/-- A reference to a heap cell. -/
abbrev Ref := Nat

/-- The heap of DataFrame objects. -/
structure Heap where
  cells : List Table
deriving DecidableEq, Repr

/-- Dereference. -/
def read (h : Heap) (r : Ref) : Option Table := h.cells.get? r

/-- Mutate the object behind `r` in place. -/
def write (h : Heap) (r : Ref) (t : Table) : Heap := ⟨h.cells.set r t⟩

/-- Allocate a fresh object (what `df.copy()` does to the content it
copies). -/
def alloc (h : Heap) (t : Table) : Heap × Ref :=
  (⟨h.cells ++ [t]⟩, h.cells.length)

/-- The snapshot dict at reference level: snapshot_id ↦ reference to the
stored copy. -/
structure Store where
  snaps : List (Nat × Ref)
deriving DecidableEq, Repr

/-- The snapshot-storing step of `log_change`:
`self.snapshots[snapshot_id] = data_snapshot.copy()` — allocate a copy
of the argument's content and bind the fresh id to the new reference. -/
def put (h : Heap) (s : Store) (src : Ref) (sid : Nat) : Heap × Store :=
  match read h src with
  | none => (h, s)
  | some t =>
      let hr := alloc h t
      (hr.1, ⟨s.snaps ++ [(sid, hr.2)]⟩)

/-- `get_snapshot`: `self.snapshots.get(snapshot_id)` — hands back the
reference stored in the dict itself, not a copy. -/
def get_snapshot (s : Store) (snapshot_id : Nat) : Option Ref :=
  s.snaps.lookup snapshot_id

/-- The resolve-and-copy tail of `revert_to_version`:
`snapshot = self.get_snapshot(...)`;
`return snapshot.copy() if snapshot is not None else None`. -/
def revert_copy (h : Heap) (s : Store) (sid : Nat) : Heap × Option Ref :=
  match get_snapshot s sid with
  | none => (h, none)
  | some r =>
      match read h r with
      | none => (h, none)
      | some t =>
          let hr := alloc h t
          (hr.1, some hr.2)

end RefModel

/-! ### Concrete sample data (used to instantiate theorems) -/

/-- A 2-column, 3-row table. -/
def sampleA : Table := ⟨["x", "y"], [["1", "2"], ["3", "4"], ["5", "6"]]⟩

/-- A 1-column, 1-row table. -/
def sampleB : Table := ⟨["z"], [["9"]]⟩

/-- A tracker holding one logged change whose snapshot is `sampleA`. -/
def sampleTracker : HistoryTracker :=
  (HistoryTracker.fresh.log_change "Upload" "initial load" (some sampleA)).1

/-- A tracker holding one logged change whose snapshot is `sampleB`. -/
def sampleTrackerB : HistoryTracker :=
  (HistoryTracker.fresh.log_change "Upload" "initial load" (some sampleB)).1

/-- App state whose tracker snapshot has 3 rows and 2 columns. -/
def stA : AppState := ⟨some sampleTracker, some sampleB⟩

/-- App state whose tracker snapshot has 1 row and 1 column. -/
def stB : AppState := ⟨some sampleTrackerB, some sampleB⟩

/-- An imported entry whose snapshot id dangles (snapshots are dropped by
`import_history`). -/
def danglingEntry : Entry := ⟨5, 0, "Clean", "dropped duplicates", some 7⟩

/-- The tracker state produced by importing a ledger that references a
snapshot: the reference no longer resolves. -/
def danglingTracker : HistoryTracker :=
  HistoryTracker.fresh.import_history (some [danglingEntry])

/-- A ledger id `eid` is bound, through its entry's snapshot id, to the
stored table `T`. -/
def Binds (t : HistoryTracker) (eid : Nat) (T : Table) : Prop :=
  ∃ e, t.history.find? (fun x => x.id == eid) = some e ∧
    ∃ sid, e.snapshot_id = some sid ∧ t.snapshots.lookup sid = some T

/-- Entry ids are below the counter and pairwise distinct. -/
def IdsFresh (t : HistoryTracker) : Prop :=
  (∀ e ∈ t.history, e.id < t.ctr) ∧ (t.history.map Entry.id).Nodup

/-- Every snapshot id referenced from the ledger resolves to exactly one
stored snapshot. -/
def ResolvesUniquely (t : HistoryTracker) : Prop :=
  ∀ e ∈ t.history, ∀ sid, e.snapshot_id = some sid →
    t.snapshots.countP (fun p => p.1 == sid) = 1

/-- Snapshot-store invariant: keys are below the counter and pairwise
distinct, and every snapshot id referenced from the ledger is a key. -/
def StoreInv (t : HistoryTracker) : Prop :=
  (∀ p ∈ t.snapshots, p.1 < t.ctr) ∧
  (t.snapshots.map Prod.fst).Nodup ∧
  (∀ e ∈ t.history, ∀ sid, e.snapshot_id = some sid → sid ∈ t.snapshots.map Prod.fst)

/-! ### Supporting lemmas -/

theorem WF_ids {t : HistoryTracker} (hWF : t.WF = true) :
    ∀ e ∈ t.history, e.id < t.ctr := by
  intro e he
  have h := (Bool.and_eq_true ..).mp hWF |>.1
  rw [List.all_eq_true] at h
  have := (Bool.and_eq_true ..).mp (h e he) |>.1
  exact of_decide_eq_true this

theorem WF_sids {t : HistoryTracker} (hWF : t.WF = true) :
    ∀ e ∈ t.history, ∀ sid, e.snapshot_id = some sid → sid < t.ctr := by
  intro e he sid hs
  have h := (Bool.and_eq_true ..).mp hWF |>.1
  rw [List.all_eq_true] at h
  have h2 := (Bool.and_eq_true ..).mp (h e he) |>.2
  rw [hs] at h2
  exact of_decide_eq_true h2

theorem WF_keys {t : HistoryTracker} (hWF : t.WF = true) :
    ∀ p ∈ t.snapshots, p.1 < t.ctr := by
  intro p hp
  have h := (Bool.and_eq_true ..).mp hWF |>.2
  rw [List.all_eq_true] at h
  exact of_decide_eq_true (h p hp)

theorem WF_of_parts {t : HistoryTracker}
    (h1 : ∀ e ∈ t.history, e.id < t.ctr)
    (h2 : ∀ e ∈ t.history, ∀ sid, e.snapshot_id = some sid → sid < t.ctr)
    (h3 : ∀ p ∈ t.snapshots, p.1 < t.ctr) : t.WF = true := by
  rw [HistoryTracker.WF, Bool.and_eq_true, List.all_eq_true, List.all_eq_true]
  refine ⟨fun e he => ?_, fun p hp => decide_eq_true (h3 p hp)⟩
  rw [Bool.and_eq_true]
  refine ⟨decide_eq_true (h1 e he), ?_⟩
  cases hsid : e.snapshot_id with
  | none => rfl
  | some sid => exact decide_eq_true (h2 e he sid hsid)

/-- `log_change` preserves well-formedness. -/
theorem WF_log_change {t : HistoryTracker} (hWF : t.WF = true)
    (a d : String) (ds : Option Table) : ((t.log_change a d ds).1).WF = true := by
  have h1 := WF_ids hWF
  have h2 := WF_sids hWF
  have h3 := WF_keys hWF
  cases ds with
  | none =>
      refine WF_of_parts ?_ ?_ ?_ <;>
        simp only [HistoryTracker.log_change, List.mem_append, List.mem_singleton]
      · rintro e (he | rfl)
        · exact Nat.lt_succ_of_lt (h1 e he)
        · exact Nat.lt_succ_self _
      · rintro e (he | rfl) sid hs
        · exact Nat.lt_succ_of_lt (h2 e he sid hs)
        · simp at hs
      · intro p hp
        exact Nat.lt_succ_of_lt (h3 p hp)
  | some T =>
      refine WF_of_parts ?_ ?_ ?_ <;>
        simp only [HistoryTracker.log_change, List.mem_append, List.mem_singleton]
      · rintro e (he | rfl)
        · exact Nat.lt_add_right 2 (h1 e he)
        · show t.ctr < t.ctr + 2
          omega
      · rintro e (he | rfl) sid hs
        · exact Nat.lt_add_right 2 (h2 e he sid hs)
        · simp at hs; omega
      · rintro p (hp | rfl)
        · exact Nat.lt_add_right 2 (h3 p hp)
        · simp

/-- A bound id reverts to the bound table. -/
theorem revert_of_binds {t : HistoryTracker} {eid : Nat} {T : Table}
    (h : Binds t eid T) : t.revert_to_version eid = some T := by
  obtain ⟨e, hfind, sid, hsid, hlook⟩ := h
  simp only [HistoryTracker.revert_to_version, hfind, hsid, HistoryTracker.get_snapshot]
  exact hlook

/-- Logging a table in a well-formed tracker binds the returned id to
that table. -/
theorem log_change_binds {t : HistoryTracker} (hWF : t.WF = true)
    (a d : String) (T : Table) :
    Binds (t.log_change a d (some T)).1 (t.log_change a d (some T)).2 T := by
  refine ⟨⟨t.ctr, t.ctr, a, d, some (t.ctr + 1)⟩, ?_, t.ctr + 1, rfl, ?_⟩
  · rw [HistoryTracker.log_change]
    simp only [List.find?_append]
    have hnone : t.history.find? (fun x => x.id == t.ctr) = none := by
      rw [List.find?_eq_none]
      intro e he
      simp only [beq_iff_eq]
      exact Nat.ne_of_lt (WF_ids hWF e he)
    rw [hnone]
    simp
  · rw [HistoryTracker.log_change]
    simp only [List.lookup_append]
    have hnone : t.snapshots.lookup (t.ctr + 1) = none := by
      rw [List.lookup_eq_none_iff]
      intro p hp
      simp only [bne_iff_ne, ne_eq]
      exact Nat.ne_of_gt (Nat.lt_succ_of_lt (WF_keys hWF p hp))
    rw [hnone]
    simp

/-- Later `log_change` calls do not disturb an existing binding. -/
theorem binds_log_change {t : HistoryTracker} {eid : Nat} {T : Table}
    (h : Binds t eid T) (a d : String) (ds : Option Table) :
    Binds (t.log_change a d ds).1 eid T := by
  obtain ⟨e, hfind, sid, hsid, hlook⟩ := h
  cases ds with
  | none =>
      exact ⟨e, by rw [HistoryTracker.log_change]; simp [List.find?_append, hfind],
        sid, hsid, hlook⟩
  | some d' =>
      refine ⟨e, by rw [HistoryTracker.log_change]; simp [List.find?_append, hfind],
        sid, hsid, ?_⟩
      rw [HistoryTracker.log_change]
      simp [List.lookup_append, hlook]

/-- A binding survives any sequence of later `log_change` calls. -/
theorem binds_runLogs {t : HistoryTracker} {eid : Nat} {T : Table}
    (h : Binds t eid T) (cs : List Call) : Binds (runLogs t cs) eid T := by
  induction cs generalizing t with
  | nil => exact h
  | cons c cs ih => exact ih (binds_log_change h c.action c.description c.data_snapshot)

/-- `runLogs` appends one entry per call, carrying the call's action and
description, in call order. -/
theorem runLogs_actions (t : HistoryTracker) (calls : List Call) :
    (runLogs t calls).history.map (fun e => (e.action, e.description))
      = t.history.map (fun e => (e.action, e.description))
        ++ calls.map (fun c => (c.action, c.description)) := by
  induction calls generalizing t with
  | nil => simp [runLogs]
  | cons c cs ih =>
      rw [runLogs, ih]
      cases hds : c.data_snapshot <;>
        simp [HistoryTracker.log_change, hds]

theorem idsFresh_log_change {t : HistoryTracker} (h : IdsFresh t)
    (a d : String) (ds : Option Table) : IdsFresh (t.log_change a d ds).1 := by
  obtain ⟨hlt, hnd⟩ := h
  have hnotmem : t.ctr ∉ t.history.map Entry.id := by
    rw [List.mem_map]
    rintro ⟨e, he, hq⟩
    exact absurd hq (Nat.ne_of_lt (hlt e he))
  cases ds with
  | none =>
      constructor
      · simp only [HistoryTracker.log_change, List.mem_append, List.mem_singleton]
        rintro e (he | rfl)
        · exact Nat.lt_succ_of_lt (hlt e he)
        · exact Nat.lt_succ_self _
      · simp only [HistoryTracker.log_change, List.map_append, List.map_cons,
          List.map_nil, List.nodup_append]
        exact ⟨hnd, List.nodup_singleton _, by
          simp only [List.disjoint_singleton]
          exact hnotmem⟩
  | some T =>
      constructor
      · simp only [HistoryTracker.log_change, List.mem_append, List.mem_singleton]
        rintro e (he | rfl)
        · exact Nat.lt_add_right 2 (hlt e he)
        · show t.ctr < t.ctr + 2
          omega
      · simp only [HistoryTracker.log_change, List.map_append, List.map_cons,
          List.map_nil, List.nodup_append]
        exact ⟨hnd, List.nodup_singleton _, by
          simp only [List.disjoint_singleton]
          exact hnotmem⟩

theorem idsFresh_runLogs {t : HistoryTracker} (h : IdsFresh t) (calls : List Call) :
    IdsFresh (runLogs t calls) := by
  induction calls generalizing t with
  | nil => exact h
  | cons c cs ih =>
      exact ih (idsFresh_log_change h c.action c.description c.data_snapshot)

/-! ### Claim theorems -/

/-- C4: for every entry logged via `log_change` with a table `T` in a
well-formed tracker, and for every sequence of later `log_change` calls
(later mutations of the live table do not touch the tracker, so they are
exactly the later logged changes), `revert_to_version` on that entry's
id returns a table content-equal to `T`. -/
theorem revert_returns_logged_table (t : HistoryTracker) (hWF : t.WF = true)
    (a d : String) (T : Table) (calls : List Call) :
    (runLogs (t.log_change a d (some T)).1 calls).revert_to_version
      (t.log_change a d (some T)).2 = some T :=
  revert_of_binds (binds_runLogs (log_change_binds hWF a d T) calls)

theorem revert_returns_logged_table_witness :
    (runLogs (HistoryTracker.fresh.log_change "Upload" "initial load" (some sampleA)).1
        [⟨"Clean", "dropped rows", some sampleB⟩]).revert_to_version
      (HistoryTracker.fresh.log_change "Upload" "initial load" (some sampleA)).2
      = some sampleA :=
  revert_returns_logged_table HistoryTracker.fresh rfl "Upload" "initial load" sampleA
    [⟨"Clean", "dropped rows", some sampleB⟩]

/-- C7: a fresh tracker after any sequence of `log_change` calls holds
exactly one entry per call, in append order (the i-th entry carries the
i-th call's action and description), with pairwise distinct ids; and
every single `log_change` call grows the ledger by exactly one entry. -/
theorem log_sequence_history_shape :
    (∀ calls : List Call,
      (runLogs HistoryTracker.fresh calls).get_history.length = calls.length ∧
      (runLogs HistoryTracker.fresh calls).get_history.map
          (fun e => (e.action, e.description))
        = calls.map (fun c => (c.action, c.description)) ∧
      ((runLogs HistoryTracker.fresh calls).get_history.map Entry.id).Nodup) ∧
    ∀ (t : HistoryTracker) (a d : String) (ds : Option Table),
      ((t.log_change a d ds).1).get_history.length = t.get_history.length + 1 := by
  constructor
  · intro calls
    have hmap := runLogs_actions HistoryTracker.fresh calls
    simp only [HistoryTracker.fresh, List.map_nil, List.nil_append] at hmap
    refine ⟨?_, hmap, ?_⟩
    · have := congrArg List.length hmap
      simpa [HistoryTracker.get_history] using this
    · exact (idsFresh_runLogs ⟨by simp [HistoryTracker.fresh],
        by simp [HistoryTracker.fresh]⟩ calls).2
  · intro t a d ds
    cases ds <;> simp [HistoryTracker.log_change, HistoryTracker.get_history]

/-- C9: `log_change` without a table always succeeds: it appends exactly
one entry carrying no `snapshot_id`, stores no snapshot, and returns the
new entry's id, which (in a well-formed tracker) differs from every
existing entry id. -/
theorem log_change_without_table (t : HistoryTracker) (a d : String) :
    (t.log_change a d none).1.get_history
      = t.get_history ++ [⟨t.ctr, t.ctr, a, d, none⟩] ∧
    (t.log_change a d none).1.snapshots = t.snapshots ∧
    (t.log_change a d none).2 = t.ctr ∧
    (t.WF = true → (t.log_change a d none).2 ∉ t.get_history.map Entry.id) := by
  refine ⟨rfl, rfl, rfl, fun hWF => ?_⟩
  rw [List.mem_map]
  rintro ⟨e, he, hq⟩
  exact absurd hq (Nat.ne_of_lt (WF_ids hWF e he))

theorem log_change_without_table_witness :
    (sampleTracker.log_change "Filter" "no snapshot taken" none).2
      ∉ sampleTracker.get_history.map Entry.id :=
  (log_change_without_table sampleTracker "Filter" "no snapshot taken").2.2.2 rfl

/-- C10: when the matching ledger entry carries a snapshot id that the
snapshot store does not know (a dangling reference, as `import_history`
produces), `revert_to_version` returns `none` instead of failing. -/
theorem dangling_snapshot_returns_none (t : HistoryTracker) (hid : Nat)
    (e : Entry) (sid : Nat)
    (hfind : t.history.find? (fun x => x.id == hid) = some e)
    (hsid : e.snapshot_id = some sid)
    (hmiss : t.snapshots.lookup sid = none) :
    t.revert_to_version hid = none := by
  simp only [HistoryTracker.revert_to_version, hfind, hsid, HistoryTracker.get_snapshot]
  exact hmiss

theorem dangling_snapshot_returns_none_witness :
    danglingTracker.revert_to_version 5 = none :=
  dangling_snapshot_returns_none danglingTracker 5 danglingEntry 7 rfl rfl rfl

/-- Reduction of the revert route when the target resolves. -/
theorem route_success {tr : HistoryTracker} {d0 s : Table} {hid : Nat}
    (hrev : tr.revert_to_version hid = some s) :
    revert_to_history_version ⟨some tr, some d0⟩ (some hid)
      = (⟨some (tr.log_change "Revert" "Reverted to state from an earlier action."
              (some s)).1,
          some s⟩,
         ⟨200, [("status", "success"),
                ("message", "Successfully reverted to the selected state.")]⟩) := by
  simp only [revert_to_history_version, hrev]

/-- Reduction of the revert route when the target does not resolve. -/
theorem route_miss {tr : HistoryTracker} {d0 : Table} {hid : Nat}
    (hrev : tr.revert_to_version hid = none) :
    revert_to_history_version ⟨some tr, some d0⟩ (some hid)
      = (⟨some tr, some d0⟩,
         ⟨404, [("status", "error"), ("message", "History snapshot not found.")]⟩) := by
  simp only [revert_to_history_version, hrev]

/-- C1 (amended): when the requested entry id resolves to a snapshot, the
revert route answers success (a fixed status/message body — the response
does not carry the new table's row and column counts) and installs the
snapshot as the current table; when it does not resolve, the route
answers 404 not-found and leaves the state unchanged. -/
theorem revert_route_success_contract (tr : HistoryTracker) (d0 : Table) (hid : Nat) :
    (∀ s : Table, tr.revert_to_version hid = some s →
      (revert_to_history_version ⟨some tr, some d0⟩ (some hid)).2
        = ⟨200, [("status", "success"),
                 ("message", "Successfully reverted to the selected state.")]⟩ ∧
      (revert_to_history_version ⟨some tr, some d0⟩ (some hid)).1.main_df = some s) ∧
    (tr.revert_to_version hid = none →
      (revert_to_history_version ⟨some tr, some d0⟩ (some hid)).2.code = 404 ∧
      (revert_to_history_version ⟨some tr, some d0⟩ (some hid)).1
        = ⟨some tr, some d0⟩) := by
  constructor
  · intro s hrev
    rw [route_success hrev]
    exact ⟨rfl, rfl⟩
  · intro hrev
    rw [route_miss hrev]
    exact ⟨rfl, rfl⟩

theorem revert_route_success_contract_witness :
    (revert_to_history_version ⟨some sampleTracker, some sampleB⟩ (some 0)).2
      = ⟨200, [("status", "success"),
               ("message", "Successfully reverted to the selected state.")]⟩ ∧
    (revert_to_history_version ⟨some sampleTracker, some sampleB⟩ (some 0)).1.main_df
      = some sampleA :=
  (revert_route_success_contract sampleTracker sampleB 0).1 sampleA rfl

/-- C1 counterexample: two successful reverts whose new current tables
have different row and column counts produce identical responses, so the
success result cannot carry the new table's row count and column count. -/
theorem revert_response_independent_of_dims :
    (revert_to_history_version stA (some 0)).2
      = (revert_to_history_version stB (some 0)).2 ∧
    (revert_to_history_version stA (some 0)).2.code = 200 ∧
    ((revert_to_history_version stA (some 0)).1.main_df.map Table.rowCount,
     (revert_to_history_version stA (some 0)).1.main_df.map Table.colCount)
      = (some 3, some 2) ∧
    ((revert_to_history_version stB (some 0)).1.main_df.map Table.rowCount,
     (revert_to_history_version stB (some 0)).1.main_df.map Table.colCount)
      = (some 1, some 1) :=
  ⟨rfl, rfl, rfl, rfl⟩

/-- C5: reverting to entry `eid`, then reverting to the Revert entry that
the first revert appended (its id is the tracker's next fresh token,
`tr.ctr`), leaves the current table exactly as the first revert left it. -/
theorem double_revert_noop (tr : HistoryTracker) (d0 s : Table) (eid : Nat)
    (hWF : tr.WF = true)
    (hrev : tr.revert_to_version eid = some s) :
    (revert_to_history_version
        (revert_to_history_version ⟨some tr, some d0⟩ (some eid)).1
        (some tr.ctr)).1.main_df
      = (revert_to_history_version ⟨some tr, some d0⟩ (some eid)).1.main_df := by
  rw [route_success hrev]
  have h2 : ((tr.log_change "Revert" "Reverted to state from an earlier action."
      (some s)).1).revert_to_version tr.ctr = some s :=
    revert_of_binds
      (log_change_binds hWF "Revert" "Reverted to state from an earlier action." s)
  rw [route_success h2]

theorem double_revert_noop_witness :
    (revert_to_history_version
        (revert_to_history_version ⟨some sampleTracker, some sampleB⟩ (some 0)).1
        (some sampleTracker.ctr)).1.main_df
      = (revert_to_history_version ⟨some sampleTracker, some sampleB⟩ (some 0)).1.main_df :=
  double_revert_noop sampleTracker sampleB sampleA 0 rfl rfl

/-- C6: a successful revert appends exactly one entry — recording the
revert, with its own snapshot — and keeps every existing entry unchanged
and in its original order. -/
theorem revert_appends_one_entry (tr : HistoryTracker) (d0 s : Table) (hid : Nat)
    (hrev : tr.revert_to_version hid = some s) :
    ∃ tr' e,
      (revert_to_history_version ⟨some tr, some d0⟩ (some hid)).1.tracker = some tr' ∧
      tr'.get_history = tr.get_history ++ [e] ∧
      e.action = "Revert" ∧
      e.description = "Reverted to state from an earlier action." ∧
      e.snapshot_id ≠ none := by
  rw [route_success hrev]
  exact ⟨_, ⟨tr.ctr, tr.ctr, "Revert", "Reverted to state from an earlier action.",
    some (tr.ctr + 1)⟩, rfl, rfl, rfl, rfl, by simp⟩

theorem revert_appends_one_entry_witness :
    ∃ tr' e,
      (revert_to_history_version ⟨some sampleTracker, some sampleB⟩ (some 0)).1.tracker
        = some tr' ∧
      tr'.get_history = sampleTracker.get_history ++ [e] ∧
      e.action = "Revert" ∧
      e.description = "Reverted to state from an earlier action." ∧
      e.snapshot_id ≠ none :=
  revert_appends_one_entry sampleTracker sampleB sampleA 0 rfl

/-- C8 (amended): `revert_to_version` returns `none` exactly when no
ledger entry matches the id, or the matching entry carries no snapshot
id, or its snapshot id is absent from the snapshot store (a dangling
reference); in the `none` case the revert route leaves the app state —
ledger and current table — unchanged and answers 404. -/
theorem revert_not_found_iff (t : HistoryTracker) (hid : Nat) :
    (t.revert_to_version hid = none ↔
      t.history.find? (fun e => e.id == hid) = none ∨
      ∃ e, t.history.find? (fun x => x.id == hid) = some e ∧
        (e.snapshot_id = none ∨
          ∃ sid, e.snapshot_id = some sid ∧ t.snapshots.lookup sid = none)) ∧
    ∀ d0 : Table, t.revert_to_version hid = none →
      (revert_to_history_version ⟨some t, some d0⟩ (some hid)).1 = ⟨some t, some d0⟩ ∧
      (revert_to_history_version ⟨some t, some d0⟩ (some hid)).2.code = 404 := by
  constructor
  · constructor
    · intro hnone
      cases hfind : t.history.find? (fun e => e.id == hid) with
      | none => exact Or.inl rfl
      | some e =>
          cases hsid : e.snapshot_id with
          | none => exact Or.inr ⟨e, rfl, Or.inl hsid⟩
          | some sid =>
              simp only [HistoryTracker.revert_to_version, hfind, hsid,
                HistoryTracker.get_snapshot] at hnone
              exact Or.inr ⟨e, rfl, Or.inr ⟨sid, hsid, hnone⟩⟩
    · rintro (hfind | ⟨e, hfind, hnosid | ⟨sid, hsid, hmiss⟩⟩)
      · simp only [HistoryTracker.revert_to_version, hfind]
      · simp only [HistoryTracker.revert_to_version, hfind, hnosid]
      · simp only [HistoryTracker.revert_to_version, hfind, hsid,
          HistoryTracker.get_snapshot]
        exact hmiss
  · intro d0 hrev
    rw [route_miss hrev]
    exact ⟨rfl, rfl⟩

theorem revert_not_found_iff_witness :
    (revert_to_history_version ⟨some sampleTracker, some sampleB⟩ (some 99)).1
      = ⟨some sampleTracker, some sampleB⟩ ∧
    (revert_to_history_version ⟨some sampleTracker, some sampleB⟩ (some 99)).2.code
      = 404 :=
  (revert_not_found_iff sampleTracker 99).2 sampleB rfl

/-- C8 counterexample: in the state produced by importing a ledger whose
entry references snapshot id 7 (which the import discarded), the entry
matches and carries a snapshot id, yet `revert_to_version` still signals
not-found — so "`none` exactly when no match or no snapshot id" fails. -/
theorem revert_not_found_dangling :
    danglingTracker.revert_to_version 5 = none ∧
    danglingTracker.history.find? (fun e => e.id == 5) = some danglingEntry ∧
    danglingEntry.snapshot_id ≠ none :=
  ⟨rfl, rfl, by simp [danglingEntry]⟩

theorem countP_fst_eq_count (l : List (Nat × Table)) (sid : Nat) :
    l.countP (fun p => p.1 == sid) = (l.map Prod.fst).count sid := by
  rw [List.count_eq_countP, List.countP_map]
  rfl

theorem storeInv_fresh : StoreInv HistoryTracker.fresh := by
  refine ⟨?_, ?_, ?_⟩ <;> simp [HistoryTracker.fresh, StoreInv]

theorem storeInv_clear {t : HistoryTracker} : StoreInv t.clear_history := by
  refine ⟨?_, ?_, ?_⟩ <;> simp [HistoryTracker.clear_history, StoreInv]

theorem storeInv_log_change {t : HistoryTracker} (h : StoreInv t)
    (a d : String) (ds : Option Table) : StoreInv (t.log_change a d ds).1 := by
  obtain ⟨hlt, hnd, hmem⟩ := h
  cases ds with
  | none =>
      refine ⟨fun p hp => Nat.lt_succ_of_lt (hlt p hp), hnd, ?_⟩
      simp only [HistoryTracker.log_change, List.mem_append, List.mem_singleton]
      rintro e (he | rfl) sid hsid
      · exact hmem e he sid hsid
      · simp at hsid
  | some T =>
      have hfreshkey : t.ctr + 1 ∉ t.snapshots.map Prod.fst := by
        rw [List.mem_map]
        rintro ⟨p, hp, hq⟩
        exact absurd hq (Nat.ne_of_lt (Nat.lt_succ_of_lt (hlt p hp)))
      refine ⟨?_, ?_, ?_⟩
      · simp only [HistoryTracker.log_change, List.mem_append, List.mem_singleton]
        rintro p (hp | rfl)
        · exact Nat.lt_add_right 2 (hlt p hp)
        · show t.ctr + 1 < t.ctr + 2
          omega
      · simp only [HistoryTracker.log_change, List.map_append, List.map_cons,
          List.map_nil, List.nodup_append]
        exact ⟨hnd, List.nodup_singleton _, by
          simp only [List.disjoint_singleton]
          exact hfreshkey⟩
      · simp only [HistoryTracker.log_change, List.mem_append, List.mem_singleton,
          List.map_append, List.map_cons, List.map_nil]
        rintro e (he | rfl) sid hsid
        · exact Or.inl (hmem e he sid hsid)
        · simp only at hsid
          cases hsid
          exact Or.inr rfl

theorem storeInv_of_reachableNoImport {t : HistoryTracker}
    (h : ReachableNoImport t) : StoreInv t := by
  induction h with
  | init => exact storeInv_fresh
  | log a d ds _ ih => exact storeInv_log_change ih a d ds
  | clear _ _ => exact storeInv_clear

theorem resolves_of_storeInv {t : HistoryTracker} (h : StoreInv t) :
    ResolvesUniquely t := by
  obtain ⟨-, hnd, hmem⟩ := h
  intro e he sid hsid
  rw [countP_fst_eq_count]
  exact List.count_eq_one_of_mem hnd (hmem e he sid hsid)

/-- C3 (amended): after every sequence of `log_change` and
`clear_history` operations — i.e. excluding `import_history`, which
restores ledger entries while discarding every snapshot — each snapshot
id referenced by a ledger entry resolves to exactly one stored
snapshot.  (After a clear the ledger is empty, so the invariant holds
vacuously.) -/
theorem reachable_no_import_resolves (t : HistoryTracker)
    (h : ReachableNoImport t) : ResolvesUniquely t :=
  resolves_of_storeInv (storeInv_of_reachableNoImport h)

theorem reachable_no_import_resolves_witness :
    sampleTracker.snapshots.countP (fun p => p.1 == 1) = 1 :=
  reachable_no_import_resolves sampleTracker
    (ReachableNoImport.log "Upload" "initial load" (some sampleA)
      ReachableNoImport.init)
    ⟨0, 0, "Upload", "initial load", some 1⟩ (by decide) 1 rfl

/-- C3 counterexample: the state reached by importing a ledger whose
entry references snapshot id 7 is reachable, yet that reference resolves
to no stored snapshot, so the invariant does not survive every
non-clearing operation. -/
theorem import_breaks_snapshot_resolution :
    Reachable danglingTracker ∧ ¬ ResolvesUniquely danglingTracker := by
  refine ⟨Reachable.imp (some [danglingEntry]) Reachable.init, fun h => ?_⟩
  exact absurd (h danglingEntry (by decide) 7 rfl) (by decide)

/-- C2 (amended): `revert_to_version` hands out a fresh copy, so mutating
what it returns does not affect the stored snapshot: in the reference
model, when snapshot id `sid` is stored at cell `r0` holding `t0`, the
revert copies `t0` into a brand-new cell, and overwriting that new cell
with any `t'` leaves the store's own cell still reading `t0` (so a
second `get`/`revert_to_version` sees the original content).
`get_snapshot`, by contrast, returns the internal reference itself — see
the counterexample. -/
theorem revert_copy_preserves_store (h : RefModel.Heap) (s : RefModel.Store)
    (sid : Nat) (hvalid : ∀ p ∈ s.snaps, p.2 < h.cells.length)
    (t' : Table) (r0 : RefModel.Ref) (t0 : Table)
    (hget : RefModel.get_snapshot s sid = some r0)
    (hread : RefModel.read h r0 = some t0) :
    RefModel.revert_copy h s sid = (⟨h.cells ++ [t0]⟩, some h.cells.length) ∧
    RefModel.read
        (RefModel.write ⟨h.cells ++ [t0]⟩ h.cells.length t') r0 = some t0 := by
  have hr0 : r0 < h.cells.length := by
    simp only [RefModel.get_snapshot] at hget
    obtain ⟨l₁, l₂, heq, -⟩ := List.lookup_eq_some_iff.mp hget
    exact hvalid (sid, r0) (heq ▸ List.mem_append_right _ (List.mem_cons_self _ _))
  constructor
  · simp only [RefModel.revert_copy, hget, hread, RefModel.alloc]
  · have hne : h.cells.length ≠ r0 := Nat.ne_of_gt hr0
    rw [RefModel.read, RefModel.write]
    rw [List.get?_eq_getElem?, List.getElem?_set_ne hne,
      List.getElem?_append_left hr0]
    rw [RefModel.read, List.get?_eq_getElem?] at hread
    exact hread

theorem revert_copy_preserves_store_witness :
    RefModel.revert_copy ⟨[sampleA]⟩ ⟨[(3, 0)]⟩ 3 = (⟨[sampleA, sampleA]⟩, some 1) ∧
    RefModel.read (RefModel.write ⟨[sampleA, sampleA]⟩ 1 sampleB) 0 = some sampleA :=
  revert_copy_preserves_store ⟨[sampleA]⟩ ⟨[(3, 0)]⟩ 3 (by decide) sampleB 0 sampleA
    rfl rfl

/-- C2 counterexample: `get_snapshot` returns the reference stored in the
dict itself, so mutating the table it hands out does change the stored
snapshot: with snapshot id 3 stored at cell 0 holding `sampleA`, `get`
yields cell 0, and after writing `sampleB` through that reference the
store's cell reads `sampleB`, not the original `sampleA`. -/
theorem get_snapshot_alias_mutation :
    RefModel.get_snapshot ⟨[(3, 0)]⟩ 3 = some 0 ∧
    RefModel.read (⟨[sampleA]⟩ : RefModel.Heap) 0 = some sampleA ∧
    RefModel.read (RefModel.write ⟨[sampleA]⟩ 0 sampleB) 0 = some sampleB ∧
    sampleB ≠ sampleA :=
  ⟨rfl, rfl, rfl, by decide⟩

end DataSnap
